import Mathlib

/-!
# call-tree.nvim: the greeter program `main.go`

A shallow embedding of `src/main.go` and a verification of its observable
behaviour.

The program consists of seven functions.  Six of them only forward a call; the
seventh, `say`, hands its argument to `fmt.Printf` as the *format string*, with
no operands.  The package `fmt` belongs to the Go standard library and is not
part of the repository; it is embedded here after the library's
`(*pp).doPrintf`, specialised to an empty operand list (which is the only way
`main.go` calls it), together with the pieces of `unicode/utf8` that this
function reaches.

Conventions of the embedding:

* a Go `string` is a finite sequence of bytes (`GoString`);
* a Go function with effects is a function `Process → Except Fault Process`,
  where `Process` holds the part of the process state that is visible to the
  program, and `Fault.indexOutOfRange` is the run-time panic of an index or
  slice expression;
* loops are unrolled by structural recursion on a fuel argument; a loop that
  is cut short by the fuel reports `Fault.outOfFuel`, so that a result
  `Except.ok _` always stands for a run of the Go code that has come to its
  end;
* the functions `say` ... `main` run on a standard output that accepts every
  write (`Process.Write`).  The functions `sayOn` ... `mainOn` are the same
  program with the kind of stream made explicit (`Stream`): a stream may accept
  the writes, fail them with an error, or be a broken pipe, on which the write
  of `os.Stdout` raises SIGPIPE and the process is killed.
-/

namespace CallTree

/-! ## Strings -/

/-- A Go `string`: an immutable sequence of bytes. -/
abbrev GoString := List UInt8

/-- Reasons for which the embedded code may fail to return. -/
inductive Fault where
  /-- Go run-time panic: index or slice bounds out of range. -/
  | indexOutOfRange
  /-- The fuel of an unrolled loop was used up (not an outcome of the Go code). -/
  | outOfFuel
  deriving DecidableEq, Repr

/-- The index expression `s[i]`, which panics out of range. -/
def index (s : GoString) (i : Nat) : Except Fault UInt8 :=
  match s[i]? with
  | some b => .ok b
  | none => .error .indexOutOfRange

/-- The slice expression `s[lo:hi]`, which panics unless `lo ≤ hi ≤ len(s)`. -/
def slice (s : GoString) (lo hi : Nat) : Except Fault GoString :=
  if lo ≤ hi ∧ hi ≤ s.length then .ok ((s.take hi).drop lo)
  else .error .indexOutOfRange

/-! ## `unicode/utf8` (Go standard library) -/

/-- The constant `utf8.RuneError`, U+FFFD. -/
def RuneError : Nat := 0xFFFD

/-- The constant `utf8.RuneSelf`: bytes below it are single-byte runes. -/
def RuneSelf : Nat := 0x80

/-- The constant `utf8.MaxRune`. -/
def MaxRune : Nat := 0x10FFFF

/-- The table `utf8.first`, by the ranges that define it: information about
the first byte of an encoding (low three bits: length of the encoding; high
nibble: index into `acceptRanges`; `0xF0` marks ASCII, `0xF1` an invalid
first byte). -/
def first (b : Nat) : Nat :=
  if b < 0x80 then 0xF0
  else if b < 0xC2 then 0xF1
  else if b < 0xE0 then 0x02
  else if b = 0xE0 then 0x13
  else if b < 0xED then 0x03
  else if b = 0xED then 0x23
  else if b < 0xF0 then 0x03
  else if b = 0xF0 then 0x34
  else if b < 0xF4 then 0x04
  else if b = 0xF4 then 0x44
  else 0xF1

/-- The table `utf8.acceptRanges`: the range `(lo, hi)` allowed for the second
byte of an encoding. -/
def acceptRanges (k : Nat) : Nat × Nat :=
  match k with
  | 0 => (0x80, 0xBF)
  | 1 => (0xA0, 0xBF)
  | 2 => (0x80, 0x9F)
  | 3 => (0x90, 0xBF)
  | 4 => (0x80, 0x8F)
  | _ => (0, 0)

/-- The function `utf8.DecodeRuneInString`: the first rune of `s` and the
number of bytes of its encoding; `(RuneError, 1)` for an invalid encoding and
`(RuneError, 0)` for the empty string. -/
def DecodeRuneInString (s : GoString) : Except Fault (Nat × Nat) := do
  let n := s.length
  if n < 1 then
    return (RuneError, 0)
  let s0 := (← index s 0).toNat
  let x := first s0
  if x ≥ 0xF0 then
    -- `mask` is all ones exactly when `x` is odd, that is for an invalid byte
    return (if x % 2 = 1 then RuneError else s0, 1)
  let sz := x &&& 7
  let accept := acceptRanges (x >>> 4)
  if n < sz then
    return (RuneError, 1)
  let s1 := (← index s 1).toNat
  if s1 < accept.1 ∨ accept.2 < s1 then
    return (RuneError, 1)
  if sz ≤ 2 then
    return (((s0 &&& 0x1F) <<< 6) ||| (s1 &&& 0x3F), 2)
  let s2 := (← index s 2).toNat
  if s2 < 0x80 ∨ 0xBF < s2 then
    return (RuneError, 1)
  if sz ≤ 3 then
    return (((s0 &&& 0x0F) <<< 12) ||| ((s1 &&& 0x3F) <<< 6) ||| (s2 &&& 0x3F), 3)
  let s3 := (← index s 3).toNat
  if s3 < 0x80 ∨ 0xBF < s3 then
    return (RuneError, 1)
  return (((s0 &&& 0x07) <<< 18) ||| ((s1 &&& 0x3F) <<< 12) ||| ((s2 &&& 0x3F) <<< 6)
    ||| (s3 &&& 0x3F), 4)

/-- The function `utf8.AppendRune`, as the bytes it appends: the UTF-8 encoding
of the rune `r`, with `RuneError` standing in for a rune out of range or a
surrogate half. -/
def AppendRune (r : Nat) : GoString :=
  if r ≤ 0x7F then
    [UInt8.ofNat r]
  else if r ≤ 0x7FF then
    [UInt8.ofNat (0xC0 ||| (r >>> 6)), UInt8.ofNat (0x80 ||| (r &&& 0x3F))]
  else
    let r := if r > MaxRune ∨ (0xD800 ≤ r ∧ r ≤ 0xDFFF) then RuneError else r
    if r ≤ 0xFFFF then
      [UInt8.ofNat (0xE0 ||| (r >>> 12)), UInt8.ofNat (0x80 ||| ((r >>> 6) &&& 0x3F)),
        UInt8.ofNat (0x80 ||| (r &&& 0x3F))]
    else
      [UInt8.ofNat (0xF0 ||| (r >>> 18)), UInt8.ofNat (0x80 ||| ((r >>> 12) &&& 0x3F)),
        UInt8.ofNat (0x80 ||| ((r >>> 6) &&& 0x3F)), UInt8.ofNat (0x80 ||| (r &&& 0x3F))]

/-- A string literal of the Go source: the UTF-8 encoding of its text. -/
def str (s : String) : GoString :=
  s.data.flatMap fun c => AppendRune c.toNat

/-! ## `fmt`: the formatted-print primitive (Go standard library)

With an empty operand list `a`, every test `argNum < len(a)` of `doPrintf` is
false and `printArg` is never reached, so that the flags, the width and the
precision kept in `p.fmt` (which only `printArg` reads) leave no trace in the
output.  They are left out of the embedding; all that the parsing of a verb
does to the position `i`, to the buffer and to `goodArgNum`, `reordered` and
`afterIndex` is kept.  An access `a[argNum]` to the empty operand list is the
panic `Fault.indexOutOfRange`. -/

/-- The printer state `fmt.pp`, restricted to the fields that `doPrintf` reads
when it is called without operands. -/
structure pp where
  /-- The output buffer `p.buf`. -/
  buf : GoString
  /-- Mirror of `p.reordered`: the format used an explicit argument index. -/
  reordered : Bool
  /-- Mirror of `p.goodArgNum`: the argument index of the current verb is valid. -/
  goodArgNum : Bool
  deriving DecidableEq, Repr

/-- The method `(*buffer).writeString`. -/
def pp.writeString (p : pp) (s : GoString) : pp :=
  { p with buf := p.buf ++ s }

/-- The method `(*buffer).writeByte`. -/
def pp.writeByte (p : pp) (c : UInt8) : pp :=
  { p with buf := p.buf ++ [c] }

/-- The method `(*buffer).writeRune`. -/
def pp.writeRune (p : pp) (r : Nat) : pp :=
  { p with buf := p.buf ++ AppendRune r }

/-- The constant `percentBangString`. -/
def percentBangString : GoString := str "%!"

/-- The constant `missingString`. -/
def missingString : GoString := str "(MISSING)"

/-- The constant `badIndexString`. -/
def badIndexString : GoString := str "(BADINDEX)"

/-- The constant `badWidthString`. -/
def badWidthString : GoString := str "%!(BADWIDTH)"

/-- The constant `badPrecString`. -/
def badPrecString : GoString := str "%!(BADPREC)"

/-- The constant `noVerbString`. -/
def noVerbString : GoString := str "%!(NOVERB)"

/-- The function `newPrinter`: a printer with an empty buffer. -/
def newPrinter : pp :=
  { buf := [], reordered := false, goodArgNum := false }

/-- The function `tooLarge`: the magnitude of `x` is too large for a width or
a precision. -/
def tooLarge (x : Int) : Bool :=
  x > 1000000 || x < -1000000

/-- The loop of `parsenum`, from position `newi` with the number `num` read so
far. -/
def parsenumLoop (s : GoString) (endi : Nat) :
    Nat → Nat → Int → Bool → Except Fault (Int × Bool × Nat)
  | 0, _, _, _ => .error .outOfFuel
  | fuel + 1, newi, num, isnum => do
    if newi < endi then
      let c ← index s newi
      if 0x30 ≤ c.toNat ∧ c.toNat ≤ 0x39 then
        if tooLarge num then
          return (0, false, endi)
        parsenumLoop s endi fuel (newi + 1) (num * 10 + ((c.toNat - 0x30 : Nat) : Int)) true
      else
        return (num, isnum, newi)
    else
      return (num, isnum, newi)

/-- The function `parsenum`: the decimal number at `s[start:end]`, whether
there is one, and the position after it. -/
def parsenum (s : GoString) (start endi : Nat) : Except Fault (Int × Bool × Nat) :=
  if start ≥ endi then
    .ok (0, false, endi)
  else
    parsenumLoop s endi (endi - start + 1) start 0 false

/-- The loop of `parseArgNumber` that looks for the closing bracket from
position `i` on. -/
def parseArgNumberLoop (format : GoString) :
    Nat → Nat → Except Fault (Int × Nat × Bool)
  | 0, _ => .error .outOfFuel
  | fuel + 1, i => do
    if i < format.length then
      if (← index format i) = 0x5D then
        let (width, ok, newi) ← parsenum format 1 i
        if !ok || newi ≠ i then
          return (0, i + 1, false)
        return (width - 1, i + 1, true)
      parseArgNumberLoop format fuel (i + 1)
    else
      return (0, 1, false)

/-- The function `parseArgNumber`: the value of the bracketed number at the
head of `format`, minus one, the number of bytes up to the closing bracket,
and whether the number was read. -/
def parseArgNumber (format : GoString) : Except Fault (Int × Nat × Bool) :=
  if format.length < 3 then
    .ok (0, 1, false)
  else
    parseArgNumberLoop format format.length 1

/-- The method `(*pp).argNumber`: the next argument to evaluate, the next
position in the format, and whether an index `[n]` was found at `format[i:]`. -/
def argNumber (p : pp) (argNum : Nat) (format : GoString) (i numArgs : Nat) :
    Except Fault (pp × Nat × Nat × Bool) := do
  if format.length ≤ i then
    return (p, argNum, i, false)
  if (← index format i) ≠ 0x5B then
    return (p, argNum, i, false)
  let p := { p with reordered := true }
  let (idx, wid, ok) ← parseArgNumber (← slice format i format.length)
  if ok ∧ 0 ≤ idx ∧ idx < (numArgs : Int) then
    return (p, idx.toNat, i + wid, true)
  return ({ p with goodArgNum := false }, argNum, i + wid, ok)

/-- The function `intFromArg` on the empty operand list: no integer is there
to be taken. -/
def intFromArg (argNum : Nat) : Int × Bool × Nat :=
  (0, false, argNum)

/-- The method `(*pp).badArgNum`. -/
def badArgNum (p : pp) (verb : Nat) : pp :=
  ((p.writeString percentBangString).writeRune verb).writeString badIndexString

/-- The method `(*pp).missingArg`. -/
def missingArg (p : pp) (verb : Nat) : pp :=
  ((p.writeString percentBangString).writeRune verb).writeString missingString

/-- The inner loop of `doPrintf` that runs over the text up to the next `%`:
`for i < end && format[i] != 0x25 { i++ }`. -/
def skipText (format : GoString) (endi : Nat) : Nat → Nat → Except Fault Nat
  | 0, _ => .error .outOfFuel
  | fuel + 1, i => do
    if i < endi then
      if (← index format i) ≠ 0x25 then
        skipText format endi fuel (i + 1)
      else
        return i
    else
      return i

/-- The loop `simpleFormat` of `doPrintf`, which runs over the flags
`#`, `0`, `+`, `-` and the blank.  Its fast path for a lower-case verb asks
for `argNum < len(a)` and is never taken without operands. -/
def simpleFormat (format : GoString) (endi : Nat) : Nat → Nat → Except Fault Nat
  | 0, _ => .error .outOfFuel
  | fuel + 1, i => do
    if i < endi then
      let c ← index format i
      if c = 0x23 ∨ c = 0x30 ∨ c = 0x2B ∨ c = 0x2D ∨ c = 0x20 then
        simpleFormat format endi fuel (i + 1)
      else
        return i
    else
      return i

/-- A guarded test `guard && format[i] == c`; the byte is only read when the
guard holds. -/
def byteIs (guard : Bool) (format : GoString) (i : Nat) (c : UInt8) : Except Fault Bool :=
  if guard then do
    return (← index format i) = c
  else
    .ok false

/-- The loop `formatLoop` of `doPrintf` for an empty operand list, from
position `i` of the format. -/
def formatLoop (format : GoString) (endi : Nat) :
    Nat → pp → Nat → Bool → Nat → Except Fault pp
  | 0, _, _, _, _ => .error .outOfFuel
  | fuel + 1, p0, argNum0, afterIndex0, i0 => do
    if ¬ i0 < endi then
      return p0
    let mut p := p0
    let mut argNum := argNum0
    let mut afterIndex := afterIndex0
    let mut i := i0
    p := { p with goodArgNum := true }
    let lasti := i
    i ← skipText format endi (endi - i + 1) i
    if i > lasti then
      p := p.writeString (← slice format lasti i)
    if i ≥ endi then
      -- done processing format string
      return p
    -- Process one verb
    i := i + 1
    -- Do we have flags?
    i ← simpleFormat format endi (endi - i + 1) i
    -- Do we have an explicit argument index?
    (p, argNum, i, afterIndex) ← argNumber p argNum format i 0
    -- Do we have width?
    if ← byteIs (i < endi) format i 0x2A then
      i := i + 1
      let (_, widPresent, newArgNum) := intFromArg argNum
      argNum := newArgNum
      if !widPresent then
        p := p.writeString badWidthString
      afterIndex := false
    else
      let (_, widPresent, newi) ← parsenum format i endi
      i := newi
      if afterIndex && widPresent then
        p := { p with goodArgNum := false }
    -- Do we have precision?
    if ← byteIs (i + 1 < endi) format i 0x2E then
      i := i + 1
      if afterIndex then
        p := { p with goodArgNum := false }
      (p, argNum, i, afterIndex) ← argNumber p argNum format i 0
      if ← byteIs (i < endi) format i 0x2A then
        i := i + 1
        let (_, precPresent, newArgNum) := intFromArg argNum
        argNum := newArgNum
        if !precPresent then
          p := p.writeString badPrecString
        afterIndex := false
      else
        let (_, _, newi) ← parsenum format i endi
        i := newi
    if !afterIndex then
      (p, argNum, i, afterIndex) ← argNumber p argNum format i 0
    if i ≥ endi then
      return p.writeString noVerbString
    let mut verb := (← index format i).toNat
    let mut size := 1
    if verb ≥ RuneSelf then
      (verb, size) ← DecodeRuneInString (← slice format i format.length)
    i := i + size
    if verb = 0x25 then
      -- Percent does not absorb operands and ignores f.wid and f.prec.
      p := p.writeByte 0x25
    else if !p.goodArgNum then
      p := badArgNum p verb
    else if argNum ≥ 0 then
      -- No argument left over to print for the current verb.
      p := missingArg p verb
    else
      -- `p.printArg(a[argNum], verb)` on the empty operand list
      throw Fault.indexOutOfRange
    formatLoop format endi fuel p argNum afterIndex i

/-- The method `(*pp).doPrintf` for an empty operand list: `p.doPrintf(format, nil)`.
The closing test for operands left over, `argNum < len(a)`, is false. -/
def doPrintf (p : pp) (format : GoString) : Except Fault pp :=
  formatLoop format format.length (format.length + 1) { p with reordered := false } 0 false 0

/-! ## The process -/

/-- The functions declared in `main.go`. -/
inductive Func where
  | say
  | world
  | indirect
  | hello1
  | world2
  | hello2
  | main
  deriving DecidableEq, Repr

/-- The state of the running process, as far as the program can see or change
it.  The fields `writes` and `calls` are histories kept for the verification:
the write operations performed on standard output and the functions of
`main.go` entered, oldest first. -/
structure Process where
  /-- The command line, `os.Args`. -/
  args : List GoString
  /-- The environment, `os.Environ()`. -/
  env : List GoString
  /-- The bytes on standard output. -/
  stdout : GoString
  /-- The write operations performed on standard output, oldest first. -/
  writes : List GoString
  /-- The functions of `main.go` entered, oldest first. -/
  calls : List Func
  deriving DecidableEq, Repr

/-- A process at its start: nothing written, nothing called. -/
def Process.start (args env : List GoString) : Process :=
  { args := args, env := env, stdout := [], writes := [], calls := [] }

/-- Entry into a function of `main.go`. -/
def Process.enter (w : Process) (f : Func) : Process :=
  { w with calls := w.calls ++ [f] }

/-- The call `os.Stdout.Write(b)` on a standard output that accepts the write:
one write operation that puts all of `b` on standard output and returns
`len(b)`.  For a write that fails see `Process.WriteOn`. -/
def Process.Write (w : Process) (b : GoString) : Nat × Process :=
  (b.length, { w with stdout := w.stdout ++ b, writes := w.writes ++ [b] })

/-- The function `fmt.Printf` called with a format and no operands:
`Fprintf(os.Stdout, format)`, that is `newPrinter`, `doPrintf`, and one
`Write` of the buffer.  The result is the number of bytes written. -/
def Printf (format : GoString) (w : Process) : Except Fault (Nat × Process) := do
  let p ← doPrintf newPrinter format
  return w.Write p.buf

/-! ## The program `main.go` -/

/-- The function `say`: `fmt.Printf(text)`, both results dropped. -/
def say (text : GoString) (w : Process) : Except Fault Process := do
  let (_, w) ← Printf text (w.enter .say)
  return w

/-- The function `world`: `say("Hello World1")`. -/
def world (w : Process) : Except Fault Process :=
  say (str "Hello World1") (w.enter .world)

/-- The function `indirect`, whose body is empty. -/
def indirect (w : Process) : Except Fault Process :=
  return w.enter .indirect

/-- The function `hello1`: `world()`. -/
def hello1 (w : Process) : Except Fault Process :=
  world (w.enter .hello1)

/-- The function `world2`: `say("Hello World2")`. -/
def world2 (w : Process) : Except Fault Process :=
  say (str "Hello World2") (w.enter .world2)

/-- The function `hello2`: `world2()`. -/
def hello2 (w : Process) : Except Fault Process :=
  world2 (w.enter .hello2)

/-- The function `main`: `hello1()` and then `hello2()`. -/
def main (w : Process) : Except Fault Process := do
  let w ← hello1 (w.enter .main)
  hello2 w

/-- The exit status of the process: 0 when `main` returns, 2 when the
program dies of a panic. -/
def exitStatus (r : Except Fault Process) : Nat :=
  match r with
  | .ok _ => 0
  | .error _ => 2

/-! ## Programs to compare `main.go` with -/

namespace WithoutIndirect

/-! The program `main.go` with the declaration of `indirect` removed: the six
remaining declarations, unchanged. -/

/-- The function `say` of the program without `indirect`. -/
def say (text : GoString) (w : Process) : Except Fault Process := do
  let (_, w) ← Printf text (w.enter .say)
  return w

/-- The function `world` of the program without `indirect`. -/
def world (w : Process) : Except Fault Process :=
  say (str "Hello World1") (w.enter .world)

/-- The function `hello1` of the program without `indirect`. -/
def hello1 (w : Process) : Except Fault Process :=
  world (w.enter .hello1)

/-- The function `world2` of the program without `indirect`. -/
def world2 (w : Process) : Except Fault Process :=
  say (str "Hello World2") (w.enter .world2)

/-- The function `hello2` of the program without `indirect`. -/
def hello2 (w : Process) : Except Fault Process :=
  world2 (w.enter .hello2)

/-- The function `main` of the program without `indirect`. -/
def main (w : Process) : Except Fault Process := do
  let w ← hello1 (w.enter .main)
  hello2 w

end WithoutIndirect

/-- A plain write of `text` to standard output, with no interpretation of the
text as a format (`os.Stdout.WriteString(text)`). -/
def writeLiteral (text : GoString) (w : Process) : Except Fault Process :=
  .ok (w.Write text).2

/-- The flattened program of the specification: a literal write of
`Hello World1` followed by a literal write of `Hello World2`. -/
def flatMain (w : Process) : Except Fault Process := do
  let w ← writeLiteral (str "Hello World1") (w.enter .main)
  writeLiteral (str "Hello World2") w

/-! ## The program on a standard output that may fail

`os.(*File).Write` returns an error when the write fails.  When the error is
EPIPE and the file is standard output or standard error, it first calls
`epipecheck`, which raises SIGPIPE; at its default disposition the signal
kills the process.  `fmt.Printf` hands the error back and `say` drops it. -/

/-- The ways in which standard output takes a write. -/
inductive Stream where
  /-- Every byte of every write is taken. -/
  | accepting
  /-- The write fails with an error other than EPIPE and nothing is written
  (closed descriptor, full device). -/
  | failing
  /-- The reading end is gone: the write fails with EPIPE, SIGPIPE is raised
  and kills the process. -/
  | brokenPipe
  deriving DecidableEq, Repr

/-- Reasons for which the process stops before `main` returns. -/
inductive Stop where
  /-- A failure of the embedded code, see `Fault`. -/
  | fault (f : Fault)
  /-- The process was killed by SIGPIPE. -/
  | sigpipe
  deriving DecidableEq, Repr

/-- The end of the process as its parent sees it. -/
inductive Termination where
  /-- The process exited with the given status. -/
  | exited (status : Nat)
  /-- The process was killed by the given signal. -/
  | killed (signal : Nat)
  deriving DecidableEq, Repr

/-- The number of the signal SIGPIPE. -/
def SIGPIPE : Nat := 13

/-- The call `os.Stdout.Write(b)` on a stream of kind `s`: the number of bytes
written and whether an error is returned, unless the process is killed. -/
def Process.WriteOn (s : Stream) (w : Process) (b : GoString) :
    Except Stop ((Nat × Bool) × Process) :=
  match s with
  | .accepting => .ok (((w.Write b).1, false), (w.Write b).2)
  | .failing => .ok ((0, true), w)
  | .brokenPipe => .error .sigpipe

/-- The function `fmt.Printf` with a format and no operands, on a stream of
kind `s`: the results of the one `Write` of the buffer. -/
def PrintfOn (s : Stream) (format : GoString) (w : Process) :
    Except Stop ((Nat × Bool) × Process) :=
  match doPrintf newPrinter format with
  | .error f => .error (.fault f)
  | .ok p => w.WriteOn s p.buf

/-- The function `say` on a stream of kind `s`: `fmt.Printf(text)`, both
results dropped. -/
def sayOn (s : Stream) (text : GoString) (w : Process) : Except Stop Process := do
  let (_, w) ← PrintfOn s text (w.enter .say)
  return w

/-- The function `world` on a stream of kind `s`. -/
def worldOn (s : Stream) (w : Process) : Except Stop Process :=
  sayOn s (str "Hello World1") (w.enter .world)

/-- The function `hello1` on a stream of kind `s`. -/
def hello1On (s : Stream) (w : Process) : Except Stop Process :=
  worldOn s (w.enter .hello1)

/-- The function `world2` on a stream of kind `s`. -/
def world2On (s : Stream) (w : Process) : Except Stop Process :=
  sayOn s (str "Hello World2") (w.enter .world2)

/-- The function `hello2` on a stream of kind `s`. -/
def hello2On (s : Stream) (w : Process) : Except Stop Process :=
  world2On s (w.enter .hello2)

/-- The function `main` on a stream of kind `s`: `hello1()` and then
`hello2()`. -/
def mainOn (s : Stream) (w : Process) : Except Stop Process := do
  let w ← hello1On s (w.enter .main)
  hello2On s w

/-- The end of the process: exit status 0 when `main` returns, death by
SIGPIPE, or exit status 2 after a panic. -/
def termination (r : Except Stop Process) : Termination :=
  match r with
  | .ok _ => .exited 0
  | .error .sigpipe => .killed SIGPIPE
  | .error (.fault _) => .exited 2

/-! ## Basic facts -/

theorem index_of_lt (s : GoString) (i : Nat) (h : i < s.length) :
    index s i = .ok s[i] := by
  simp [index, List.getElem?_eq_getElem h]

theorem slice_all (s : GoString) : slice s 0 s.length = .ok s := by
  simp [slice]

theorem skipText_of_no_percent (format : GoString) (h : (0x25 : UInt8) ∉ format) :
    ∀ fuel i, i ≤ format.length → format.length - i < fuel →
      skipText format format.length fuel i = .ok format.length := by
  intro fuel
  induction fuel with
  | zero => intro i _ hf; omega
  | succ fuel ih =>
    intro i hi hf
    by_cases hlt : i < format.length
    · have hne : format[i] ≠ 0x25 := fun he => h (he ▸ List.getElem_mem hlt)
      have hrec := ih (i + 1) (by omega) (by omega)
      simp [skipText, hlt, index_of_lt, hne, hrec, bind, Except.bind]
    · have : i = format.length := by omega
      simp [skipText, this, pure, Except.pure]

theorem doPrintf_of_no_percent (p : pp) (format : GoString) (h : (0x25 : UInt8) ∉ format) :
    ∃ q, doPrintf p format = .ok q ∧ q.buf = p.buf ++ format := by
  by_cases hlen : 0 < format.length
  · have hs := skipText_of_no_percent format h (format.length + 1) 0 (by omega) (by omega)
    have hq : doPrintf p format =
        .ok { buf := p.buf ++ format, reordered := false, goodArgNum := true } := by
      simp [doPrintf, formatLoop, hlen, hs, slice_all, bind, Except.bind, pure, Except.pure,
        pp.writeString]
    exact ⟨_, hq, rfl⟩
  · have : format = [] := List.length_eq_zero.mp (by omega)
    subst this
    exact ⟨_, rfl, by simp⟩

theorem say_of_no_percent (text : GoString) (h : (0x25 : UInt8) ∉ text) (w : Process) :
    say text w = .ok { w with stdout := w.stdout ++ text, writes := w.writes ++ [text],
                              calls := w.calls ++ [Func.say] } := by
  obtain ⟨q, hq, hbuf⟩ := doPrintf_of_no_percent newPrinter text h
  have hbuf' : q.buf = text := by simpa [newPrinter] using hbuf
  simp [say, Printf, hq, hbuf', Process.Write, Process.enter, bind, Except.bind, pure,
    Except.pure]

theorem no_percent_world1 : (0x25 : UInt8) ∉ str "Hello World1" := by decide

theorem no_percent_world2 : (0x25 : UInt8) ∉ str "Hello World2" := by decide

theorem hello1_eq (w : Process) :
    hello1 w = .ok { w with stdout := w.stdout ++ str "Hello World1",
                            writes := w.writes ++ [str "Hello World1"],
                            calls := w.calls ++ [Func.hello1, Func.world, Func.say] } := by
  simp [hello1, world, say_of_no_percent _ no_percent_world1, Process.enter]

theorem hello2_eq (w : Process) :
    hello2 w = .ok { w with stdout := w.stdout ++ str "Hello World2",
                            writes := w.writes ++ [str "Hello World2"],
                            calls := w.calls ++ [Func.hello2, Func.world2, Func.say] } := by
  simp [hello2, world2, say_of_no_percent _ no_percent_world2, Process.enter]

theorem main_eq (w : Process) :
    main w = .ok { w with
      stdout := w.stdout ++ str "Hello World1" ++ str "Hello World2",
      writes := w.writes ++ [str "Hello World1", str "Hello World2"],
      calls := w.calls ++ [Func.main, Func.hello1, Func.world, Func.say,
        Func.hello2, Func.world2, Func.say] } := by
  simp [main, hello1_eq, hello2_eq, Process.enter, bind, Except.bind]

theorem doPrintf_percent_percent :
    doPrintf newPrinter (str "%%") =
      .ok { buf := str "%", reordered := false, goodArgNum := true } := by
  rfl

theorem doPrintf_percent_d :
    doPrintf newPrinter (str "%d") =
      .ok { buf := str "%!d(MISSING)", reordered := false, goodArgNum := true } := by
  rfl

theorem PrintfOn_of_no_percent (s : Stream) (text : GoString)
    (h : (0x25 : UInt8) ∉ text) (w : Process) :
    PrintfOn s text w = w.WriteOn s text := by
  obtain ⟨q, hq, hbuf⟩ := doPrintf_of_no_percent newPrinter text h
  have hbuf' : q.buf = text := by simpa [newPrinter] using hbuf
  simp [PrintfOn, hq, hbuf']

theorem sayOn_accepting (text : GoString) (h : (0x25 : UInt8) ∉ text) (w : Process) :
    sayOn Stream.accepting text w = .ok { w with
      stdout := w.stdout ++ text
      writes := w.writes ++ [text]
      calls := w.calls ++ [Func.say] } := by
  simp [sayOn, PrintfOn_of_no_percent _ _ h, Process.WriteOn, Process.Write, Process.enter,
    bind, Except.bind, pure, Except.pure]

theorem sayOn_failing (text : GoString) (h : (0x25 : UInt8) ∉ text) (w : Process) :
    sayOn Stream.failing text w = .ok { w with calls := w.calls ++ [Func.say] } := by
  simp [sayOn, PrintfOn_of_no_percent _ _ h, Process.WriteOn, Process.enter,
    bind, Except.bind, pure, Except.pure]

theorem sayOn_brokenPipe (text : GoString) (h : (0x25 : UInt8) ∉ text) (w : Process) :
    sayOn Stream.brokenPipe text w = .error Stop.sigpipe := by
  simp [sayOn, PrintfOn_of_no_percent _ _ h, Process.WriteOn, bind, Except.bind]

theorem mainOn_accepting (w : Process) :
    mainOn Stream.accepting w = .ok { w with
      stdout := w.stdout ++ str "Hello World1" ++ str "Hello World2",
      writes := w.writes ++ [str "Hello World1", str "Hello World2"],
      calls := w.calls ++ [Func.main, Func.hello1, Func.world, Func.say,
        Func.hello2, Func.world2, Func.say] } := by
  simp [mainOn, hello1On, hello2On, worldOn, world2On, sayOn_accepting _ no_percent_world1,
    sayOn_accepting _ no_percent_world2, Process.enter, bind, Except.bind]

theorem mainOn_failing (w : Process) :
    mainOn Stream.failing w = .ok { w with
      calls := w.calls ++ [Func.main, Func.hello1, Func.world, Func.say,
        Func.hello2, Func.world2, Func.say] } := by
  simp [mainOn, hello1On, hello2On, worldOn, world2On, sayOn_failing _ no_percent_world1,
    sayOn_failing _ no_percent_world2, Process.enter, bind, Except.bind]

theorem mainOn_brokenPipe (w : Process) :
    mainOn Stream.brokenPipe w = .error Stop.sigpipe := by
  simp [mainOn, hello1On, worldOn, sayOn_brokenPipe _ no_percent_world1, bind, Except.bind]

/-! ## The claims -/

/-- C1: run from an empty standard output, `main` returns and leaves standard
output equal to exactly the 24 bytes `Hello World1Hello World2`. -/
theorem main_output_from_empty (w : Process) (h : w.stdout = []) :
    ∃ w', main w = .ok w' ∧ w'.stdout = str "Hello World1Hello World2" ∧
      w'.stdout.length = 24 := by
  refine ⟨_, main_eq w, ?_, ?_⟩
  · simp only [h, List.nil_append]
    decide
  · simp only [h, List.nil_append]
    decide

/-- Witness of C1: the process started with no arguments and an empty
environment. -/
theorem main_output_from_empty_witness :
    (Process.start [] []).stdout = [] ∧
      ∃ w', main (Process.start [] []) = .ok w' ∧
        w'.stdout = str "Hello World1Hello World2" ∧ w'.stdout.length = 24 :=
  ⟨rfl, main_output_from_empty (Process.start [] []) rfl⟩

/-- C2: `main` performs exactly two write operations on standard output, the
whole of `Hello World1` first and the whole of `Hello World2` second, so that
in the output all of the first greeting stands before all of the second. -/
theorem main_two_writes_in_order (w : Process) :
    ∃ w', main w = .ok w' ∧
      w'.writes = w.writes ++ [str "Hello World1", str "Hello World2"] ∧
      w'.stdout = w.stdout ++ str "Hello World1" ++ str "Hello World2" :=
  ⟨_, main_eq w, rfl, rfl⟩

/-- C3, as it fails: on a standard output that is a broken pipe the first
write of `main` raises SIGPIPE, the process is killed and does not exit with
status 0. -/
theorem main_killed_on_broken_pipe :
    mainOn Stream.brokenPipe (Process.start [] []) = .error Stop.sigpipe ∧
      termination (mainOn Stream.brokenPipe (Process.start [] [])) =
        Termination.killed SIGPIPE ∧
      termination (mainOn Stream.brokenPipe (Process.start [] [])) ≠
        Termination.exited 0 := by
  refine ⟨mainOn_brokenPipe _, ?_, ?_⟩
  · rw [mainOn_brokenPipe]
    rfl
  · rw [mainOn_brokenPipe]
    decide

/-- C3, amended: on every invocation in which standard output is not a broken
pipe, `main` returns and the process exits with status 0; none of `main`,
`hello1`, `hello2`, `world`, `world2`, nor `say` on either of the two literals,
ends in a panic.  On a standard output that accepts the writes this is the run
of `main` itself. -/
theorem main_exits_zero_unless_broken_pipe (s : Stream) (h : s ≠ Stream.brokenPipe)
    (args env : List GoString) (w : Process) :
    termination (mainOn s (Process.start args env)) = Termination.exited 0 ∧
      termination (mainOn s w) = Termination.exited 0 ∧
      (∃ w', mainOn s w = .ok w') ∧
      (∃ w', hello1On s w = .ok w') ∧
      (∃ w', hello2On s w = .ok w') ∧
      (∃ w', worldOn s w = .ok w') ∧
      (∃ w', world2On s w = .ok w') ∧
      (∃ w', sayOn s (str "Hello World1") w = .ok w') ∧
      (∃ w', sayOn s (str "Hello World2") w = .ok w') ∧
      (∃ w', mainOn Stream.accepting w = .ok w' ∧ main w = .ok w' ∧
        exitStatus (main w) = 0) := by
  have hmain : ∃ w', mainOn Stream.accepting w = .ok w' ∧ main w = .ok w' ∧
      exitStatus (main w) = 0 :=
    ⟨_, mainOn_accepting w, main_eq w, by rw [main_eq]; rfl⟩
  cases s with
  | accepting =>
    refine ⟨by rw [mainOn_accepting]; rfl, by rw [mainOn_accepting]; rfl,
      ⟨_, mainOn_accepting w⟩, ?_, ?_, ?_, ?_,
      ⟨_, sayOn_accepting _ no_percent_world1 w⟩,
      ⟨_, sayOn_accepting _ no_percent_world2 w⟩, hmain⟩
    · exact ⟨_, sayOn_accepting _ no_percent_world1 _⟩
    · exact ⟨_, sayOn_accepting _ no_percent_world2 _⟩
    · exact ⟨_, sayOn_accepting _ no_percent_world1 _⟩
    · exact ⟨_, sayOn_accepting _ no_percent_world2 _⟩
  | failing =>
    refine ⟨by rw [mainOn_failing]; rfl, by rw [mainOn_failing]; rfl,
      ⟨_, mainOn_failing w⟩, ?_, ?_, ?_, ?_,
      ⟨_, sayOn_failing _ no_percent_world1 w⟩,
      ⟨_, sayOn_failing _ no_percent_world2 w⟩, hmain⟩
    · exact ⟨_, sayOn_failing _ no_percent_world1 _⟩
    · exact ⟨_, sayOn_failing _ no_percent_world2 _⟩
    · exact ⟨_, sayOn_failing _ no_percent_world1 _⟩
    · exact ⟨_, sayOn_failing _ no_percent_world2 _⟩
  | brokenPipe => exact absurd rfl h

/-- Witness of C3, amended: a standard output that accepts the writes, on the
process started with no arguments and an empty environment. -/
theorem main_exits_zero_unless_broken_pipe_witness :
    Stream.accepting ≠ Stream.brokenPipe ∧
      termination (mainOn Stream.accepting (Process.start [] [])) = Termination.exited 0 :=
  ⟨by decide,
    (main_exits_zero_unless_broken_pipe Stream.accepting (by decide) [] []
      (Process.start [] [])).1⟩

/-- C4: the output of `main` does not depend on the command line or on the
environment: any two runs write the same bytes to standard output, in the
same write operations. -/
theorem main_output_deterministic (args₁ env₁ args₂ env₂ : List GoString) :
    ∃ w₁ w₂, main (Process.start args₁ env₁) = .ok w₁ ∧
      main (Process.start args₂ env₂) = .ok w₂ ∧
      w₁.stdout = w₂.stdout ∧ w₁.writes = w₂.writes :=
  ⟨_, _, main_eq _, main_eq _, rfl, rfl⟩

/-- C5: `indirect` is not entered on the execution of `main`, a call of
`indirect` changes nothing but the history of calls, and the program without
`indirect` behaves as the original program does. -/
theorem indirect_is_dead_code (w : Process) :
    (∃ w', main w = .ok w' ∧
      w'.calls = w.calls ++ [Func.main, Func.hello1, Func.world, Func.say,
        Func.hello2, Func.world2, Func.say] ∧
      Func.indirect ∉ [Func.main, Func.hello1, Func.world, Func.say,
        Func.hello2, Func.world2, Func.say]) ∧
    (∃ w', indirect w = .ok w' ∧ w'.stdout = w.stdout ∧ w'.writes = w.writes ∧
      w'.args = w.args ∧ w'.env = w.env) ∧
    WithoutIndirect.main w = main w ∧
    exitStatus (WithoutIndirect.main w) = exitStatus (main w) :=
  ⟨⟨_, main_eq w, rfl, by decide⟩, ⟨_, rfl, rfl, rfl, rfl, rfl⟩, rfl, rfl⟩

/-- C6: what `main` puts on standard output holds no newline and no
separator: the output is `Hello World1` followed at once by `Hello World2`,
and its last byte is the digit `2` (0x32). -/
theorem main_output_no_newline (w : Process) :
    ∃ w', main w = .ok w' ∧
      w'.stdout = w.stdout ++ (str "Hello World1" ++ str "Hello World2") ∧
      (0x0A : UInt8) ∉ str "Hello World1" ++ str "Hello World2" ∧
      w'.stdout.getLast? = some 0x32 := by
  refine ⟨_, main_eq w, by simp, by decide, ?_⟩
  have h : str "Hello World2" = str "Hello World" ++ [0x32] := by decide
  simp only [h, ← List.append_assoc, List.getLast?_append, List.getLast?_singleton]
  rfl

/-- C7: for every initial content of standard output, `main` and the flattened
program (two literal writes) both return, with the same standard output, the
same write operations and the same exit status. -/
theorem main_refines_flat (w : Process) :
    ∃ w₁ w₂, main w = .ok w₁ ∧ flatMain w = .ok w₂ ∧
      w₁.stdout = w₂.stdout ∧ w₁.writes = w₂.writes ∧
      exitStatus (main w) = exitStatus (flatMain w) := by
  refine ⟨_, _, main_eq w, rfl, ?_, ?_, ?_⟩
  · simp [Process.Write, Process.enter]
  · simp [Process.Write, Process.enter]
  · rw [main_eq]; rfl

/-- C8: for every text without the byte `%` (0x25), `say(text)` returns and
appends exactly `text` to standard output, in one write; neither of the two
literals holds a `%`. -/
theorem say_verbatim_of_no_percent (text : GoString) (h : (0x25 : UInt8) ∉ text)
    (w : Process) :
    (∃ w', say text w = .ok w' ∧ w'.stdout = w.stdout ++ text ∧
      w'.writes = w.writes ++ [text]) ∧
    (0x25 : UInt8) ∉ str "Hello World1" ∧ (0x25 : UInt8) ∉ str "Hello World2" :=
  ⟨⟨_, say_of_no_percent text h w, rfl, rfl⟩, no_percent_world1, no_percent_world2⟩

/-- Witness of C8: the text `Hello World1` on a fresh process. -/
theorem say_verbatim_of_no_percent_witness :
    (0x25 : UInt8) ∉ str "Hello World1" ∧
    ((∃ w', say (str "Hello World1") (Process.start [] []) = .ok w' ∧
        w'.stdout = (Process.start [] []).stdout ++ str "Hello World1" ∧
        w'.writes = (Process.start [] []).writes ++ [str "Hello World1"]) ∧
      (0x25 : UInt8) ∉ str "Hello World1" ∧ (0x25 : UInt8) ∉ str "Hello World2") :=
  ⟨by decide, say_verbatim_of_no_percent (str "Hello World1") (by decide) (Process.start [] [])⟩

/-- C9: `hello1` appends exactly `Hello World1` in a single write and touches
nothing else, `hello2` does the same with `Hello World2`, and this holds
whatever standard output held before and in whichever order the two run. -/
theorem chains_independent (w : Process) :
    (∃ w', hello1 w = .ok w' ∧ w'.stdout = w.stdout ++ str "Hello World1" ∧
      w'.writes = w.writes ++ [str "Hello World1"] ∧ w'.args = w.args ∧ w'.env = w.env) ∧
    (∃ w', hello2 w = .ok w' ∧ w'.stdout = w.stdout ++ str "Hello World2" ∧
      w'.writes = w.writes ++ [str "Hello World2"] ∧ w'.args = w.args ∧ w'.env = w.env) ∧
    (∃ w', (hello1 w >>= hello2) = .ok w' ∧
      w'.stdout = w.stdout ++ str "Hello World1" ++ str "Hello World2" ∧
      w'.writes = w.writes ++ [str "Hello World1"] ++ [str "Hello World2"]) ∧
    (∃ w', (hello2 w >>= hello1) = .ok w' ∧
      w'.stdout = w.stdout ++ str "Hello World2" ++ str "Hello World1" ∧
      w'.writes = w.writes ++ [str "Hello World2"] ++ [str "Hello World1"]) := by
  refine ⟨⟨_, hello1_eq w, rfl, rfl, rfl, rfl⟩, ⟨_, hello2_eq w, rfl, rfl, rfl, rfl⟩, ?_, ?_⟩
  · have e : (hello1 w >>= hello2) = .ok { w with
        stdout := w.stdout ++ str "Hello World1" ++ str "Hello World2"
        writes := w.writes ++ [str "Hello World1"] ++ [str "Hello World2"]
        calls := w.calls ++ [Func.hello1, Func.world, Func.say] ++
          [Func.hello2, Func.world2, Func.say] } := by
      rw [hello1_eq]
      exact hello2_eq _
    exact ⟨_, e, rfl, rfl⟩
  · have e : (hello2 w >>= hello1) = .ok { w with
        stdout := w.stdout ++ str "Hello World2" ++ str "Hello World1"
        writes := w.writes ++ [str "Hello World2"] ++ [str "Hello World1"]
        calls := w.calls ++ [Func.hello2, Func.world2, Func.say] ++
          [Func.hello1, Func.world, Func.say] } := by
      rw [hello2_eq]
      exact hello1_eq _
    exact ⟨_, e, rfl, rfl⟩

/-- C10: `say` is not a verbatim write in general: some text with a `%` makes
`say` append bytes other than the text; `say("%%")` appends `%` and
`say("%d")` appends `%!d(MISSING)`. -/
theorem say_not_verbatim (w : Process) :
    (∃ text w', (0x25 : UInt8) ∈ text ∧ say text w = .ok w' ∧
      w'.stdout ≠ w.stdout ++ text) ∧
    (∃ w', say (str "%%") w = .ok w' ∧ w'.stdout = w.stdout ++ str "%") ∧
    (∃ w', say (str "%d") w = .ok w' ∧ w'.stdout = w.stdout ++ str "%!d(MISSING)") := by
  have h1 : say (str "%%") w = .ok { w with
      stdout := w.stdout ++ str "%"
      writes := w.writes ++ [str "%"]
      calls := w.calls ++ [Func.say] } := by
    simp [say, Printf, doPrintf_percent_percent, Process.Write, Process.enter, bind,
      Except.bind, pure, Except.pure]
  have h2 : say (str "%d") w = .ok { w with
      stdout := w.stdout ++ str "%!d(MISSING)"
      writes := w.writes ++ [str "%!d(MISSING)"]
      calls := w.calls ++ [Func.say] } := by
    simp [say, Printf, doPrintf_percent_d, Process.Write, Process.enter, bind,
      Except.bind, pure, Except.pure]
  refine ⟨⟨str "%%", _, by decide, h1, ?_⟩, ⟨_, h1, rfl⟩, ⟨_, h2, rfl⟩⟩
  intro he
  have hl := congrArg List.length he
  simp only [List.length_append] at hl
  have : (str "%").length ≠ (str "%%").length := by decide
  omega

end CallTree
